import Mathlib

/-!
Verification of the Gaussian-process regression core of
`src/utils/gpr_visualization.ipynb`.

The embedding below transcribes the three numeric components of the
notebook:

* `SquaredExponentialKernel.__call__`  →  `squaredExponentialKernel`
* `cov_matrix`                         →  `cov_matrix`
* `GPR.__init__` / `GPR.predict`       →  `GPR.init` / `GPR.predict`

Points are fixed-dimension real vectors `Fin d → ℝ`; numpy arrays of
points are `Fin n → Fin d → ℝ`; numpy 2-D arrays are Mathlib matrices.
`np.linalg.inv` is modelled by Mathlib's `Matrix.inv` (the actual inverse
whenever the matrix is invertible).  A second, list-based model at the end
of the file captures numpy's dynamic shapes and broadcasting, which the
fixed-dimension typing cannot express; it is used for the
dimension-mismatch claims.
-/

namespace GPRModel

noncomputable section

open Matrix
open scoped BigOperators

/-- The flat constant `3e-7` (written out as `3 / 10 ^ 7`) that the source
adds for numerical stabilization, both in `GPR.__init__` (together with
the noise, times `np.identity`) and in `GPR.predict` (times `np.ones`). -/
def stabilizationEpsilon : ℝ := 3 / 10 ^ 7

/-- `SquaredExponentialKernel.__call__`:
`sigma_f * np.exp(-(np.linalg.norm(a - b) ** 2) / (2 * length ** 2))`.
`np.linalg.norm` is the Euclidean norm `sqrt (Σ (a i - b i)^2)`, squared
afterwards exactly as in the source. -/
def squaredExponentialKernel (sigma_f length : ℝ) (a b : Fin d → ℝ) : ℝ :=
  sigma_f * Real.exp (-(Real.sqrt (∑ i, (a i - b i) ^ 2)) ^ 2 / (2 * length ^ 2))

/-- `cov_matrix(x1, x2, cov_function)`:
`np.array([[cov_function(a, b) for a in x1] for b in x2])`.
The outer comprehension runs over `x2`, so rows are indexed by `x2` and
columns by `x1`: the entry at row `i`, column `j` is
`cov_function (x1 j) (x2 i)`. -/
def cov_matrix (x1 : Fin p → Fin d → ℝ) (x2 : Fin q → Fin d → ℝ)
    (cov_function : (Fin d → ℝ) → (Fin d → ℝ) → ℝ) : Matrix (Fin q) (Fin p) ℝ :=
  Matrix.of fun i j => cov_function (x1 j) (x2 i)

/-- The state of a `GPR` instance after `__init__`. -/
structure GPR (d n : ℕ) where
  data_x : Fin n → Fin d → ℝ
  data_y : Fin n → ℝ
  covariance_fn : (Fin d → ℝ) → (Fin d → ℝ) → ℝ
  noise : ℝ
  inverse_of_covariance_matrix_of_input : Matrix (Fin n) (Fin n) ℝ

/-- `GPR.__init__(data_x, data_y, covariance_function, white_noise_sigma)`:
stores the data and
`np.linalg.inv(cov_matrix(data_x, data_x, covariance_function)
              + (3e-7 + noise) * np.identity(len(data_x)))`. -/
def GPR.init (data_x : Fin n → Fin d → ℝ) (data_y : Fin n → ℝ)
    (covariance_fn : (Fin d → ℝ) → (Fin d → ℝ) → ℝ) (noise : ℝ) : GPR d n :=
  { data_x := data_x
    data_y := data_y
    covariance_fn := covariance_fn
    noise := noise
    inverse_of_covariance_matrix_of_input :=
      (cov_matrix data_x data_x covariance_fn
        + (stabilizationEpsilon + noise) • (1 : Matrix (Fin n) (Fin n) ℝ))⁻¹ }

/-- The `_memory` dictionary stored by `GPR.predict`. -/
structure PosteriorResult (m : ℕ) where
  mean : Fin m → ℝ
  covariance_matrix : Matrix (Fin m) (Fin m) ℝ
  variance : Fin m → ℝ

/-- `k_lower_left = cov_matrix(self.data_x, at_values, self.covariance_function)`:
an `m × n` matrix (rows indexed by the query points). -/
def GPR.kLowerLeft (g : GPR d n) (at_values : Fin m → Fin d → ℝ) :
    Matrix (Fin m) (Fin n) ℝ :=
  cov_matrix g.data_x at_values g.covariance_fn

/-- `k_lower_right = cov_matrix(at_values, at_values, self.covariance_function)`. -/
def GPR.kLowerRight (g : GPR d n) (at_values : Fin m → Fin d → ℝ) :
    Matrix (Fin m) (Fin m) ℝ :=
  cov_matrix at_values at_values g.covariance_fn

/-- `mean_at_values = np.dot(k_lower_left, np.dot(self.data_y, inv.T).T).flatten()`.
For a 1-D `data_y`, `np.dot(data_y, inv.T)` is the vector-matrix product
`vecMul`, the trailing `.T` and `.flatten()` are no-ops on 1-D arrays. -/
def GPR.meanAtValues (g : GPR d n) (at_values : Fin m → Fin d → ℝ) : Fin m → ℝ :=
  (g.kLowerLeft at_values).mulVec
    (Matrix.vecMul g.data_y g.inverse_of_covariance_matrix_of_input.transpose)

/-- `cov_at_values = k_lower_right - np.dot(k_lower_left, np.dot(inv, k_lower_left.T))`
— the posterior covariance before the stabilization step. -/
def GPR.covRaw (g : GPR d n) (at_values : Fin m → Fin d → ℝ) :
    Matrix (Fin m) (Fin m) ℝ :=
  g.kLowerRight at_values -
    g.kLowerLeft at_values *
      (g.inverse_of_covariance_matrix_of_input * (g.kLowerLeft at_values).transpose)

/-- `cov_at_values = cov_at_values + 3e-7 * np.ones(np.shape(cov_at_values)[0])`.
`np.ones(m)` is a length-`m` row vector; numpy broadcasting adds it to
every row, so every entry of the matrix (diagonal and off-diagonal alike)
increases by `3e-7`. -/
def GPR.covAtValues (g : GPR d n) (at_values : Fin m → Fin d → ℝ) :
    Matrix (Fin m) (Fin m) ℝ :=
  Matrix.of fun i j => g.covRaw at_values i j + stabilizationEpsilon

/-- `var_at_values = np.diag(cov_at_values)`. -/
def GPR.varAtValues (g : GPR d n) (at_values : Fin m → Fin d → ℝ) : Fin m → ℝ :=
  fun i => g.covAtValues at_values i i

/-- `GPR.predict(at_values)`: stores
`self._memory = {'mean': ..., 'covariance_matrix': ..., 'variance': ...}`
and returns `mean_at_values`.  The first component of the pair is the
Python return value, the second is the stored `_memory`. -/
def GPR.predict (g : GPR d n) (at_values : Fin m → Fin d → ℝ) :
    (Fin m → ℝ) × PosteriorResult m :=
  (g.meanAtValues at_values,
   { mean := g.meanAtValues at_values
     covariance_matrix := g.covAtValues at_values
     variance := g.varAtValues at_values })

/-! ### Definitions following the specification's words

These are used on the specification side of refinement statements and are
deliberately written from the spec, not from the source. -/

/-- Spec side: `Kx = covariance(trainingInputs, queryPoints)` is described
as the `n × m` matrix of kernel values between training inputs and query
points: entry `(i, j)` is `k (trainingInputs i) (queryPoints j)`. -/
def specKx (x : Fin n → Fin d → ℝ) (q : Fin m → Fin d → ℝ)
    (k : (Fin d → ℝ) → (Fin d → ℝ) → ℝ) : Matrix (Fin n) (Fin m) ℝ :=
  Matrix.of fun i j => k (x i) (q j)

/-- Spec side: the stabilized training covariance matrix, described as the
`n × n` matrix with off-diagonal entry `(i, j)` equal to `k (x i) (x j)`
and diagonal entry `k (x i) (x i) + c` where `c = epsilon + noiseVariance`. -/
def specTrainingMatrix (x : Fin n → Fin d → ℝ)
    (k : (Fin d → ℝ) → (Fin d → ℝ) → ℝ) (c : ℝ) : Matrix (Fin n) (Fin n) ℝ :=
  Matrix.of fun i j => k (x i) (x j) + if i = j then c else 0

/-- Spec side: the matrix layout claimed for `cov_matrix`: a `p × q`
matrix with entry `(i, j)` equal to `k (X i) (Y j)`. -/
def specCovMatrix (x1 : Fin p → Fin d → ℝ) (x2 : Fin q → Fin d → ℝ)
    (k : (Fin d → ℝ) → (Fin d → ℝ) → ℝ) : Matrix (Fin p) (Fin q) ℝ :=
  Matrix.of fun i j => k (x1 i) (x2 j)

/-! ### Helper lemmas -/

/-- The squared-exponential kernel is symmetric in its two arguments. -/
lemma squaredExponentialKernel_symm (sigma_f length : ℝ) (a b : Fin d → ℝ) :
    squaredExponentialKernel sigma_f length a b
      = squaredExponentialKernel sigma_f length b a := by
  unfold squaredExponentialKernel
  have h : ∑ i, (a i - b i) ^ 2 = ∑ i, (b i - a i) ^ 2 := by
    refine Finset.sum_congr rfl fun i _ => ?_
    ring
  rw [h]

/-- At equal arguments the squared-exponential kernel returns exactly its
signal variance. -/
lemma squaredExponentialKernel_self (sigma_f length : ℝ) (a : Fin d → ℝ) :
    squaredExponentialKernel sigma_f length a a = sigma_f := by
  unfold squaredExponentialKernel
  simp [Real.sqrt_eq_zero']

/-- The squared Euclidean norm inside the kernel evaluates to the plain
sum of squares. -/
lemma sqrt_sumsq_sq (a b : Fin d → ℝ) :
    (Real.sqrt (∑ i, (a i - b i) ^ 2)) ^ 2 = ∑ i, (a i - b i) ^ 2 := by
  refine Real.sq_sqrt ?_
  exact Finset.sum_nonneg fun i _ => sq_nonneg _

/-- If a kernel is symmetric, the code's stabilized training matrix
coincides with the spec's description of it. -/
lemma trainingMatrix_eq_spec (x : Fin n → Fin d → ℝ)
    (k : (Fin d → ℝ) → (Fin d → ℝ) → ℝ) (c : ℝ)
    (hk : ∀ a b : Fin d → ℝ, k a b = k b a) :
    cov_matrix x x k + c • (1 : Matrix (Fin n) (Fin n) ℝ)
      = specTrainingMatrix x k c := by
  ext i j
  simp only [cov_matrix, specTrainingMatrix, Matrix.add_apply, Matrix.smul_apply,
    Matrix.one_apply, Matrix.of_apply, smul_eq_mul, hk (x j) (x i)]
  by_cases h : i = j <;> simp [h]

/-- The inverse of a nonzero `1 × 1` real matrix is the matrix of the
inverse entry. -/
lemma inv_fin_one (A : Matrix (Fin 1) (Fin 1) ℝ) (h : A 0 0 ≠ 0) :
    A⁻¹ = Matrix.of fun _ _ => (A 0 0)⁻¹ := by
  refine Matrix.inv_eq_right_inv ?_
  ext i j
  have hi : i = 0 := Subsingleton.elim i 0
  have hj : j = 0 := Subsingleton.elim j 0
  subst hi; subst hj
  simp [Matrix.mul_apply, Fin.sum_univ_one, mul_inv_cancel₀ h, Matrix.one_apply]

/-! ### Claims about the kernel -/

/-- Claim C9: the kernel evaluation returns
`signalVariance * exp(-‖a - b‖² / (2 * lengthscale²))` where `‖a - b‖²`
is the sum of squared coordinate differences, and at equal arguments it
returns exactly `signalVariance`. -/
theorem kernel_formula_and_self_similarity (sigma_f length : ℝ) (a b : Fin d → ℝ) :
    squaredExponentialKernel sigma_f length a b
        = sigma_f * Real.exp (-(∑ i, (a i - b i) ^ 2) / (2 * length ^ 2))
      ∧ squaredExponentialKernel sigma_f length a a = sigma_f := by
  constructor
  · unfold squaredExponentialKernel
    rw [sqrt_sumsq_sq]
  · exact squaredExponentialKernel_self sigma_f length a

/-- Claim C10: the kernel evaluation is symmetric,
`k a b = k b a`, exactly. -/
theorem kernel_symmetry (sigma_f length : ℝ) (a b : Fin d → ℝ) :
    squaredExponentialKernel sigma_f length a b
      = squaredExponentialKernel sigma_f length b a :=
  squaredExponentialKernel_symm sigma_f length a b

/-! ### Claims about covariance-matrix assembly -/

/-- Claim C3 (counterexample): `cov_matrix` does not satisfy
`M[i][j] = k (X i) (Y j)`.  With `X = (0, 1)`, `Y = (0, 3)` (1-D points)
and the squared-exponential kernel, the entry at `(0, 1)` is
`k (X 1) (Y 0) = exp (-1/2)`, not `k (X 0) (Y 1) = exp (-9/2)`. -/
theorem cov_matrix_layout_counterexample :
    cov_matrix ![![(0 : ℝ)], ![1]] ![![(0 : ℝ)], ![3]]
        (squaredExponentialKernel 1 1) 0 1
      ≠ specCovMatrix ![![(0 : ℝ)], ![1]] ![![(0 : ℝ)], ![3]]
          (squaredExponentialKernel 1 1) 0 1 := by
  have h1 : cov_matrix ![![(0 : ℝ)], ![1]] ![![(0 : ℝ)], ![3]]
      (squaredExponentialKernel 1 1) 0 1 = Real.exp (-(1 / 2)) := by
    show squaredExponentialKernel 1 1 ![(1 : ℝ)] ![(0 : ℝ)] = _
    unfold squaredExponentialKernel
    rw [sqrt_sumsq_sq]
    norm_num [Fin.sum_univ_one]
  have h2 : specCovMatrix ![![(0 : ℝ)], ![1]] ![![(0 : ℝ)], ![3]]
      (squaredExponentialKernel 1 1) 0 1 = Real.exp (-(9 / 2)) := by
    show squaredExponentialKernel 1 1 ![(0 : ℝ)] ![(3 : ℝ)] = _
    unfold squaredExponentialKernel
    rw [sqrt_sumsq_sq]
    norm_num [Fin.sum_univ_one]
  rw [h1, h2, ne_eq, Real.exp_eq_exp]
  norm_num

/-- Claim C3 (amended): `cov_matrix X Y k` is the `q × p` matrix with
rows indexed by `Y` and columns by `X`, entry `(i, j)` being
`k (X j) (Y i)` — the transpose of the layout the claim states. -/
theorem cov_matrix_transpose_layout (x1 : Fin p → Fin d → ℝ)
    (x2 : Fin q → Fin d → ℝ) (k : (Fin d → ℝ) → (Fin d → ℝ) → ℝ) :
    cov_matrix x1 x2 k = (specCovMatrix x1 x2 k).transpose := by
  ext i j
  rfl

/-! ### Claims about construction -/

/-- Claim C4: for a symmetric kernel (the spec's `Kernel` data model makes
symmetry part of being a kernel), construction stores the inverse of the
stabilized training covariance matrix: off-diagonal entries `k (x i) (x j)`
and diagonal entries `k (x i) (x i) + (stabilizationEpsilon + sigma)`. -/
theorem init_stores_inverse_of_stabilized_matrix
    (x : Fin n → Fin d → ℝ) (y : Fin n → ℝ)
    (k : (Fin d → ℝ) → (Fin d → ℝ) → ℝ) (sigma : ℝ)
    (hk : ∀ a b : Fin d → ℝ, k a b = k b a) :
    (GPR.init x y k sigma).inverse_of_covariance_matrix_of_input
      = (specTrainingMatrix x k (stabilizationEpsilon + sigma))⁻¹ := by
  unfold GPR.init
  rw [trainingMatrix_eq_spec x k _ hk]

/-- Witness for C4 at a concrete two-point training set with the
squared-exponential kernel and noise `0.01`. -/
theorem init_stores_inverse_witness :
    (GPR.init ![![(0 : ℝ)], ![1]] ![0, 1]
        (squaredExponentialKernel 1 1) (1 / 100)).inverse_of_covariance_matrix_of_input
      = (specTrainingMatrix ![![(0 : ℝ)], ![1]]
          (squaredExponentialKernel 1 1) (stabilizationEpsilon + 1 / 100))⁻¹ :=
  init_stores_inverse_of_stabilized_matrix ![![(0 : ℝ)], ![1]] ![0, 1]
    (squaredExponentialKernel 1 1) (1 / 100)
    (fun a b => squaredExponentialKernel_symm 1 1 a b)

/-! ### Claims about prediction -/

/-- Claim C1: the returned posterior mean is `Kxᵀ · (A · y)` where `Kx`
is the `n × m` matrix of kernel values between training inputs and query
points and `A` is the stored inverse of the stabilized training
covariance matrix. -/
theorem predict_mean_posterior
    (x : Fin n → Fin d → ℝ) (y : Fin n → ℝ)
    (k : (Fin d → ℝ) → (Fin d → ℝ) → ℝ) (sigma : ℝ)
    (q : Fin m → Fin d → ℝ) :
    ((GPR.init x y k sigma).predict q).1
      = (specKx x q k).transpose.mulVec
          (((cov_matrix x x k
              + (stabilizationEpsilon + sigma) • (1 : Matrix (Fin n) (Fin n) ℝ))⁻¹).mulVec y) := by
  show (GPR.init x y k sigma).meanAtValues q = _
  unfold GPR.meanAtValues
  have h1 : (GPR.init x y k sigma).kLowerLeft q = (specKx x q k).transpose := by
    ext i j
    rfl
  rw [h1, Matrix.vecMul_transpose]
  rfl

/-- Claim C2 (divergence): the stabilization step
`cov + 3e-7 * np.ones(m)` raises every entry of the posterior covariance
by `3e-7`, so in particular the off-diagonal entry `(0, 1)` of any
two-point prediction is changed, where the claim (and the notebook's own
markdown) say only diagonal entries are stabilized. -/
theorem predict_stabilization_hits_off_diagonal
    (x : Fin n → Fin d → ℝ) (y : Fin n → ℝ)
    (k : (Fin d → ℝ) → (Fin d → ℝ) → ℝ) (sigma : ℝ)
    (q : Fin 2 → Fin d → ℝ) :
    ((GPR.init x y k sigma).predict q).2.covariance_matrix 0 1
        = (GPR.init x y k sigma).covRaw q 0 1 + stabilizationEpsilon
      ∧ ((GPR.init x y k sigma).predict q).2.covariance_matrix 0 1
          ≠ (GPR.init x y k sigma).covRaw q 0 1 := by
  refine ⟨rfl, ?_⟩
  have h0 : ((GPR.init x y k sigma).predict q).2.covariance_matrix 0 1
      = (GPR.init x y k sigma).covRaw q 0 1 + stabilizationEpsilon := rfl
  rw [h0]
  intro hc
  have h1 : stabilizationEpsilon = 0 := by linarith
  rw [stabilizationEpsilon] at h1
  norm_num at h1

/-- Claim C5 (counterexample): the value returned by `predict` does not
contain the posterior covariance.  For the regressor trained on the single
pair `([0], 1)` with covariance function `k a b = a·b + 1`, the queries
`[0]` and `[1]` produce identical return values but different posterior
covariance matrices, so the covariance cannot be part of what `predict`
returns. -/
theorem predict_returns_only_mean_counterexample :
    ((GPR.init ![![(0 : ℝ)]] ![1] (fun a b => a 0 * b 0 + 1) (1 / 100)).predict
        ![![(0 : ℝ)]]).1
      = ((GPR.init ![![(0 : ℝ)]] ![1] (fun a b => a 0 * b 0 + 1) (1 / 100)).predict
          ![![(1 : ℝ)]]).1
   ∧ ((GPR.init ![![(0 : ℝ)]] ![1] (fun a b => a 0 * b 0 + 1) (1 / 100)).predict
        ![![(0 : ℝ)]]).2.covariance_matrix
      ≠ ((GPR.init ![![(0 : ℝ)]] ![1] (fun a b => a 0 * b 0 + 1) (1 / 100)).predict
          ![![(1 : ℝ)]]).2.covariance_matrix := by
  constructor
  · funext i
    have hi : i = 0 := Subsingleton.elim i 0
    subst hi
    show ((GPR.init ![![(0 : ℝ)]] ![1] _ _).kLowerLeft _).mulVec _ 0
        = ((GPR.init ![![(0 : ℝ)]] ![1] _ _).kLowerLeft _).mulVec _ 0
    simp [GPR.kLowerLeft, cov_matrix, GPR.init, Matrix.mulVec, dotProduct,
      Fin.sum_univ_one]
  · intro h
    have h2 := congrFun (congrFun h 0) 0
    have hl : ((GPR.init ![![(0 : ℝ)]] ![1] (fun a b => a 0 * b 0 + 1)
        (1 / 100)).predict ![![(0 : ℝ)]]).2.covariance_matrix 0 0
        = 1 - (GPR.init ![![(0 : ℝ)]] ![1] (fun a b => a 0 * b 0 + 1)
            (1 / 100)).inverse_of_covariance_matrix_of_input 0 0
          + stabilizationEpsilon := by
      show (GPR.init ![![(0 : ℝ)]] ![1] _ _).covRaw ![![(0 : ℝ)]] 0 0
          + stabilizationEpsilon = _
      unfold GPR.covRaw GPR.kLowerLeft GPR.kLowerRight
      simp [cov_matrix, GPR.init, Matrix.mul_apply, Matrix.sub_apply,
        Fin.sum_univ_one]
    have hr : ((GPR.init ![![(0 : ℝ)]] ![1] (fun a b => a 0 * b 0 + 1)
        (1 / 100)).predict ![![(1 : ℝ)]]).2.covariance_matrix 0 0
        = 2 - (GPR.init ![![(0 : ℝ)]] ![1] (fun a b => a 0 * b 0 + 1)
            (1 / 100)).inverse_of_covariance_matrix_of_input 0 0
          + stabilizationEpsilon := by
      show (GPR.init ![![(0 : ℝ)]] ![1] _ _).covRaw ![![(1 : ℝ)]] 0 0
          + stabilizationEpsilon = _
      unfold GPR.covRaw GPR.kLowerLeft GPR.kLowerRight
      simp [cov_matrix, GPR.init, Matrix.mul_apply, Matrix.sub_apply,
        Fin.sum_univ_one]
      ring
    rw [hl, hr] at h2
    linarith

/-- Claim C5 (amended): `predict` returns only the mean vector; the full
result record (mean, covariance and variance, the latter equal to the
diagonal of the covariance) is stored in the regressor's memory, not
returned. -/
theorem predict_memory_contents (g : GPR d n) (q : Fin m → Fin d → ℝ) :
    (g.predict q).1 = (g.predict q).2.mean
      ∧ ∀ i, (g.predict q).2.variance i = (g.predict q).2.covariance_matrix i i :=
  ⟨rfl, fun _ => rfl⟩

/-- The predictive mean of a regressor constructed from an empty training
set is identically zero: all the sums range over an empty index type. -/
lemma mean_empty_training (k : (Fin d → ℝ) → (Fin d → ℝ) → ℝ) (sigma : ℝ)
    (q : Fin m → Fin d → ℝ) :
    ((GPR.init (n := 0) ![] ![] k sigma).predict q).1 = fun _ => (0 : ℝ) := by
  funext i
  simp [GPR.predict, GPR.meanAtValues, GPR.kLowerLeft, Matrix.mulVec, dotProduct]

/-- For a one-point training set, the stored inverse is the `1 × 1` matrix
of the reciprocal of the single stabilized entry. -/
lemma init_fin_one_inverse (x : Fin 1 → Fin d → ℝ) (y : Fin 1 → ℝ)
    (k : (Fin d → ℝ) → (Fin d → ℝ) → ℝ) (sigma : ℝ)
    (h : k (x 0) (x 0) + (stabilizationEpsilon + sigma) ≠ 0) :
    (GPR.init x y k sigma).inverse_of_covariance_matrix_of_input
      = Matrix.of fun _ _ => (k (x 0) (x 0) + (stabilizationEpsilon + sigma))⁻¹ := by
  unfold GPR.init
  have hentry : (cov_matrix x x k
      + (stabilizationEpsilon + sigma) • (1 : Matrix (Fin 1) (Fin 1) ℝ)) 0 0
      = k (x 0) (x 0) + (stabilizationEpsilon + sigma) := by
    simp [cov_matrix, Matrix.one_apply]
  rw [inv_fin_one _ (by rw [hentry]; exact h), hentry]

/-- Claim C6 (counterexample): both degenerate constructions succeed.  The
regressor built from zero training points answers predictions (with mean
`0`), and the regressor built with negative noise variance `-1/2` is
created, its stored inverse being the reciprocal of the stabilized entry
`1 - 1/2 + 3e-7`. -/
theorem degenerate_construction_counterexample :
    ((GPR.init (n := 0) (d := 1) ![] ![] (squaredExponentialKernel 1 1)
        (1 / 100)).predict ![![(0 : ℝ)]]).1 0 = 0
      ∧ (GPR.init ![![(0 : ℝ)]] ![5] (squaredExponentialKernel 1 1)
          (-(1 / 2))).inverse_of_covariance_matrix_of_input 0 0
        = (1 / 2 + stabilizationEpsilon)⁻¹ := by
  constructor
  · rw [mean_empty_training (squaredExponentialKernel 1 1) (1 / 100) ![![(0 : ℝ)]]]
  · have hself : squaredExponentialKernel 1 1 (![![(0 : ℝ)]] 0) (![![(0 : ℝ)]] 0)
        = 1 := squaredExponentialKernel_self 1 1 (![![(0 : ℝ)]] 0)
    have hne : squaredExponentialKernel 1 1 (![![(0 : ℝ)]] 0) (![![(0 : ℝ)]] 0)
        + (stabilizationEpsilon + -(1 / 2)) ≠ 0 := by
      rw [hself, stabilizationEpsilon]
      norm_num
    rw [init_fin_one_inverse ![![(0 : ℝ)]] ![5] (squaredExponentialKernel 1 1)
      (-(1 / 2)) hne]
    rw [Matrix.of_apply, hself]
    ring_nf

/-- Claim C6 (amended): construction performs no validation.  A regressor
built from zero training points exists and predicts the prior mean `0`
everywhere, and any noise value — negative included — is accepted and used
unchanged in the stabilized matrix whose inverse is stored. -/
theorem init_accepts_degenerate_inputs
    (k : (Fin d → ℝ) → (Fin d → ℝ) → ℝ) (sigma : ℝ) (q : Fin m → Fin d → ℝ)
    (x : Fin n → Fin d → ℝ) (y : Fin n → ℝ) :
    ((GPR.init (n := 0) ![] ![] k sigma).predict q).1 = (fun _ => (0 : ℝ))
      ∧ (GPR.init x y k sigma).noise = sigma
      ∧ (GPR.init x y k sigma).inverse_of_covariance_matrix_of_input
          = (cov_matrix x x k
              + (stabilizationEpsilon + sigma) • (1 : Matrix (Fin n) (Fin n) ℝ))⁻¹ :=
  ⟨mean_empty_training k sigma q, rfl, rfl⟩

/-- Claim C8 (counterexample): a prediction can return a variance entry
far below zero without any condition being raised.  The code accepts the
constant `-1/2` as covariance function (no validation anywhere); training
on the single pair `([0], 0)` with noise `1` and predicting at `[0]`
yields a plain result whose variance entry is less than `-1/4`. -/
theorem negative_variance_counterexample :
    ((GPR.init ![![(0 : ℝ)]] ![0] (fun _ _ => -(1 / 2)) 1).predict
        ![![(0 : ℝ)]]).2.variance 0 < -(1 / 4) := by
  have hne : (fun (_ _ : Fin 1 → ℝ) => -(1 / 2 : ℝ)) (![![(0 : ℝ)]] 0) (![![(0 : ℝ)]] 0)
      + (stabilizationEpsilon + 1) ≠ 0 := by
    rw [stabilizationEpsilon]; norm_num
  have hA := init_fin_one_inverse ![![(0 : ℝ)]] ![0] (fun _ _ => -(1 / 2)) 1 hne
  have hvar : ((GPR.init ![![(0 : ℝ)]] ![0] (fun _ _ => -(1 / 2)) 1).predict
      ![![(0 : ℝ)]]).2.variance 0
      = -(1 / 2) - (-(1 / 2) + (stabilizationEpsilon + 1))⁻¹ * (1 / 4)
        + stabilizationEpsilon := by
    show (GPR.init ![![(0 : ℝ)]] ![0] (fun _ _ => -(1 / 2)) 1).covRaw
        ![![(0 : ℝ)]] 0 0 + stabilizationEpsilon = _
    unfold GPR.covRaw GPR.kLowerLeft GPR.kLowerRight
    rw [hA]
    simp [cov_matrix, GPR.init, Matrix.mul_apply, Matrix.sub_apply,
      Fin.sum_univ_one]
    ring
  rw [hvar]
  have hpos : (0 : ℝ) < (-(1 / 2) + (stabilizationEpsilon + 1))⁻¹ := by
    rw [stabilizationEpsilon]
    norm_num
  rw [stabilizationEpsilon]
  rw [stabilizationEpsilon] at hpos
  nlinarith [hpos]

/-- Claim C8 (amended): `predict` applies no negativity check or clamping
to the variance: every entry is exactly the corresponding raw posterior
diagonal entry plus `3e-7`, whatever its sign. -/
theorem predict_variance_unchecked (g : GPR d n) (q : Fin m → Fin d → ℝ)
    (i : Fin m) :
    (g.predict q).2.variance i = g.covRaw q i i + stabilizationEpsilon :=
  rfl

/-! ### Dynamic-shape model

The fixed-dimension typing above cannot express calls where point
dimensions disagree.  numpy, however, accepts many of those: `a - b`
broadcasts whenever the two 1-D shapes are equal or one of them is `1`,
and raises a shape error otherwise.  The model below uses `List ℝ` points
and `Option` for the shape error, following numpy's broadcasting rule. -/

/-- numpy's `a - b` on 1-D arrays: elementwise when the lengths agree,
broadcast when one length is `1`, shape error (`none`) otherwise. -/
def npBroadcastSub (a b : List ℝ) : Option (List ℝ) :=
  if a.length = b.length then some (List.zipWith (fun x y => x - y) a b)
  else if a.length = 1 then some (b.map fun bi => a.headI - bi)
  else if b.length = 1 then some (a.map fun ai => ai - b.headI)
  else none

/-- Sum of squares of a list, the square of `np.linalg.norm`. -/
def listSumSq (l : List ℝ) : ℝ := (l.map fun x => x ^ 2).sum

/-- `SquaredExponentialKernel.__call__` in the dynamic-shape view: the
subtraction `argument_1 - argument_2` may raise a shape error, everything
after it is total. -/
def squaredExponentialKernelDyn (sigma_f length : ℝ) (a b : List ℝ) : Option ℝ :=
  (npBroadcastSub a b).map fun diff =>
    sigma_f * Real.exp (-(Real.sqrt (listSumSq diff)) ^ 2 / (2 * length ^ 2))

/-- `cov_matrix` in the dynamic-shape view: the nested list comprehension
propagates the first shape error raised by a kernel evaluation. -/
def cov_matrixDyn (x1 x2 : List (List ℝ))
    (cov_function : List ℝ → List ℝ → Option ℝ) : Option (List (List ℝ)) :=
  x2.mapM fun b => x1.mapM fun a => cov_function a b

/-- `K + c * np.identity(n)` on a list-of-lists matrix. -/
def stabilizeDiagonal (c : ℝ) (K : List (List ℝ)) : List (List ℝ) :=
  K.mapIdx fun i row => row.mapIdx fun j v => v + if i = j then c else 0

/-- The state of a `GPR` instance in the dynamic-shape view.  It keeps the
stabilized training matrix handed to `np.linalg.inv`; inversion itself
raises no shape error and is modelled in the fixed-dimension embedding. -/
structure GPRDyn where
  data_x : List (List ℝ)
  data_y : List ℝ
  noise : ℝ
  stabilizedTrainingMatrix : List (List ℝ)

/-- `GPR.__init__` in the dynamic-shape view: it fails exactly when a
kernel evaluation inside `cov_matrix(data_x, data_x, ...)` fails. -/
def GPRDyn.init (data_x : List (List ℝ)) (data_y : List ℝ)
    (cov_function : List ℝ → List ℝ → Option ℝ) (noise : ℝ) : Option GPRDyn :=
  (cov_matrixDyn data_x data_x cov_function).map fun K =>
    { data_x := data_x
      data_y := data_y
      noise := noise
      stabilizedTrainingMatrix := stabilizeDiagonal (stabilizationEpsilon + noise) K }

/-- Claim C7 (counterexample): constructing with training inputs of
mismatched dimensions does not fail.  With training points `[2]` (1-D) and
`[0, 1, 0]` (3-D), every kernel evaluation broadcasts, and construction
succeeds. -/
theorem dimension_mismatch_counterexample :
    (GPRDyn.init [[2], [0, 1, 0]] [0, 1]
        (squaredExponentialKernelDyn 1 1) (1 / 100)).isSome = true := by
  rfl

/-- Claim C7 (amended): there is no dimension validation and no
`DimensionMismatch` error.  A 1-D point is broadcast against any other
point, so the kernel evaluation succeeds; only incompatible dimensions
(both exceeding one and unequal, here `2` against `3`) make the
subtraction fail, and that generic shape error aborts construction. -/
theorem no_dimension_validation (sigma_f length sigma : ℝ)
    (a x y z u v : ℝ) (b ys : List ℝ) :
    (squaredExponentialKernelDyn sigma_f length [a] b).isSome = true
      ∧ squaredExponentialKernelDyn sigma_f length [x, y] [z, u, v] = none
      ∧ GPRDyn.init [[x, y], [z, u, v]] ys
          (squaredExponentialKernelDyn sigma_f length) sigma = none := by
  refine ⟨?_, rfl, rfl⟩
  unfold squaredExponentialKernelDyn npBroadcastSub
  split_ifs with h1 h2 h3 <;> simp_all

end

end GPRModel
